import Mathlib

/-!
Verification of the lock subsystem of `plugins/locker.py` (pytestlab).

The Python source is embedded shallowly: pure helpers become Lean functions,
the stateful lock manager becomes explicit state passing plus a labelled
transition system for the interleaving of the foreground caller with the
background keep-alive thread, and calls into the external `etcd` store and the
DNS resolver are oracles supplied as function arguments.  Wall-clock time is
modelled in ticks of the fixed 0.5 second poll interval, so a duration of `t`
seconds is `2 * t` ticks.  Python strings are Lean strings, with the string
primitives evaluated on the underlying character lists.
-/

namespace Pytestlab

/-- Embeds the Python string method `s.startswith(p)`. -/
def startswith (s p : String) : Bool :=
  p.data.isPrefixOf s.data

/-- Embeds the Python string method `s.endswith(p)`. -/
def endswith (s p : String) : Bool :=
  s.data.reverse.take p.data.length == p.data.reverse

/-- Embeds one folding step of CPython `posixpath.join(path, b)`: an absolute
second component discards everything accumulated before it; otherwise a
separator is inserted unless one is already there. -/
def pjoin2 (path b : String) : String :=
  if startswith b "/" then b
  else if path = "" || endswith path "/" then path ++ b
  else path ++ "/" ++ b

/-- Embeds `EtcdLocker._makekey(name)`, i.e. `posixpath.join('lab', 'locks', name)`. -/
def makekey (name : String) : String :=
  pjoin2 (pjoin2 "lab" "locks") name

/-- Python truthiness fallback `user or default` for an optional string
argument: `None` and the empty string are falsy. -/
def orFalsy (user : Option String) (default : String) : String :=
  match user with
  | some s => if s = "" then default else s
  | none => default

/-- Embeds `get_lock_id(user)`:
`'@'.join((user or os.environ.get("USER", "anonymous"), socket.getfqdn()))`.
`envUser` is the value of the `USER` environment variable (`none` when unset)
and `fqdn` the result of `socket.getfqdn()`. -/
def get_lock_id (user envUser : Option String) (fqdn : String) : String :=
  orFalsy user (envUser.getD "anonymous") ++ "@" ++ fqdn

/-- Lexicographic comparison of character lists by code point; this is the
order Python uses on `str` and agrees with the order on `String`. -/
def charListLe : List Char → List Char → Bool
  | [], _ => true
  | _ :: _, [] => false
  | a :: as, b :: bs => a < b || (a == b && charListLe as bs)

/-- Embeds the Python string method `s.rstrip('.')`: drop all trailing dots. -/
def rstripDot (s : String) : String :=
  String.mk (s.data.reverse.dropWhile (fun c => c == '.')).reverse

/-- An `SRV` namedtuple of `plugins/locker.py`: `host`, `port`, `priority`,
`weight`. -/
structure SRV where
  host : String
  port : Nat
  priority : Nat
  weight : Nat
deriving DecidableEq

/-- One item of a resource in the additional section of a DNS response, with
its record type number (`dns.rdatatype.A` is `1`) and address. -/
structure RData where
  rdtype : Nat
  address : String
deriving DecidableEq

/-- One resource of the additional section of a DNS response: the owner name
(`resource.name.to_text()`) and its items. -/
structure AdditionalRec where
  name : String
  items : List RData
deriving DecidableEq

/-- One SRV record of the answer section: `resource.target.to_text()`,
`resource.port`, `resource.priority`, `resource.weight`. -/
structure AnswerRec where
  target : String
  port : Nat
  priority : Nat
  weight : Nat
deriving DecidableEq

/-- Embeds the map of `_build_resource_to_address_map` looked up at `target`:
every `A`-record address of every additional resource named `target`, in
response order. -/
def resourceAddresses (additional : List AdditionalRec) (target : String) : List String :=
  (additional.filter (fun r => r.name == target)).flatMap
    (fun r => (r.items.filter (fun i => i.rdtype == 1)).map (fun i => i.address))

/-- Embeds the membership test `target in resource_map`: the defaultdict of
`_build_resource_to_address_map` creates a key for every resource of the
additional section (even one contributing no `A` record), so membership is
existence of an additional resource with that name. -/
def inResourceMap (additional : List AdditionalRec) (target : String) : Bool :=
  additional.any (fun r => r.name == target)

/-- Embeds `_build_result_set`: one `SRV` per resolved address of each answer
record, falling back to the bare target host (trailing dots stripped) when the
additional section has no entry for the target. -/
def build_result_set (answer : List AnswerRec) (additional : List AdditionalRec) : List SRV :=
  answer.flatMap fun resource =>
    if inResourceMap additional resource.target then
      (resourceAddresses additional resource.target).map
        (fun address => ⟨address, resource.port, resource.priority, resource.weight⟩)
    else
      [⟨rstripDot resource.target, resource.port, resource.priority, resource.weight⟩]

/-- The comparison underlying `sorted(results, key=lambda r: (r.priority,
-r.weight, r.host))`: lexicographic on priority ascending, then weight
descending, then host ascending. -/
def srvLe (a b : SRV) : Bool :=
  a.priority < b.priority ||
    (a.priority == b.priority &&
      (b.weight < a.weight ||
        (a.weight == b.weight && charListLe a.host.data b.host.data)))

/-- Embeds the result construction of `query_etcd_server` after a successful
SRV query: build the result set and sort it.  Python `sorted` is a stable
sort, as is `List.mergeSort`. -/
def query_etcd_server (answer : List AnswerRec) (additional : List AdditionalRec) : List SRV :=
  (build_result_set answer additional).mergeSort srvLe

/-- Outcome of `connect_to_etcd`: a client bound to the endpoint that accepted
the connection, the re-raised last connection error, or the bare
`RuntimeError`. -/
inductive ConnResult
  | client (endpoint : SRV)
  | raised (e : String)
  | runtimeError (msg : String)
deriving DecidableEq

/-- Constructor discriminator for `ConnResult`, comparing only the kind of
outcome and not its payload. -/
def ConnResult.kind : ConnResult → Nat
  | .client _ => 0
  | .raised _ => 1
  | .runtimeError _ => 2

/-- Embeds the endpoint loop of `connect_to_etcd`: `attempt r` is `none` when
`etcd.Client(host=r.host, port=2379)` succeeds and `some e` when it raises the
connection error `e`; `err` is the running last error, initially `None`. -/
def connectLoop (attempt : SRV → Option String) (err : Option String) :
    List SRV → ConnResult
  | [] =>
    match err with
    | some e => .raised e
    | none => .runtimeError "What happened?"
  | r :: rest =>
    match attempt r with
    | none => .client r
    | some e => connectLoop attempt (some e) rest

/-- Embeds `connect_to_etcd` applied to the already-discovered ordered
endpoint list. -/
def connect_to_etcd (attempt : SRV → Option String) (endpoints : List SRV) : ConnResult :=
  connectLoop attempt none endpoints

/-- An etcd lock record as `EtcdLocker.read` returns it: `value` is the holder
id stored at the key, `ttl` the remaining time-to-live in whole seconds. -/
structure Rec where
  value : String
  ttl : Nat
deriving DecidableEq

/-- A store mutation attempted through the etcd client: `write k v ttl
prevExists refresh` stands for `etcd.write(k, v, ttl, prevExists=..,
refresh=..)` and `delete k` for `etcd.delete(k)`. -/
inductive StoreEff
  | write (key value : String) (ttl : Option Nat) (prevExists refresh : Bool)
  | delete (key : String)
deriving DecidableEq

/-- Modelled from the spec: the exception classes `TooManyLocks` and
`ResourceLocked` are raised by `Locker.lock` but declared in no file under
`src/`; following the error taxonomy of the spec they are distinct error
kinds carrying the formatted message.  `alreadyExists` stands for the raw
etcd already-exists error that a failed `prevExists=False` write raises, which
nothing in `Locker.lock` catches. -/
inductive LockResult
  | ok (key lockid : String)
  | tooManyLocks (msg : String)
  | resourceLocked (msg : String)
  | alreadyExists (key : String)
deriving DecidableEq

/-- Is this outcome the `ResourceLocked` error? -/
def LockResult.isResourceLocked : LockResult → Bool
  | .resourceLocked _ => true
  | _ => false

/-- The in-process state touched by `Locker`: `locks` is the
`EtcdLocker.locks` registry (key to lockid, insertion ordered), `threadAlive`
whether a keep-alive thread object exists and `is_alive()`, `stopSet` whether
the `self._stop` event has been set. -/
structure LockerSt where
  locks : List (String × String)
  threadAlive : Bool
  stopSet : Bool
deriving DecidableEq

/-- The hard-coded `self.ttl = 30` of `Locker.__init__` (seconds). -/
def lockTtl : Nat := 30

/-- Embeds the wait loop of `Locker.lock`.  Iteration `k` runs at elapsed time
`k` ticks of 0.5 s (the `time.sleep(0.5)` interval), the guard `time.time() -
start < timeout` becomes `remaining > 0` where `remaining` counts the ticks
left until the deadline, and `readAt k` is the `self.locker.read(key)` of
iteration `k`.  Returns the value bound to `msg` after the loop: `none` when a
read found the record gone (the `break`), otherwise the record of the last
read (or the pre-loop read when the loop never ran). -/
def pollCount (readAt : Nat → Option Rec) (k : Nat) : Nat → Rec → Option Rec
  | 0, msg => some msg
  | remaining + 1, _ =>
    match readAt k with
    | none => none
    | some m => pollCount readAt (k + 1) remaining m

/-- Embeds `Locker.lock(name, user, timeout)`.  Oracles stand for the outside
world: `readInit` is the first `self.locker.read(key)`, `readAt k` the read of
wait-loop iteration `k`, `createOk` tells whether `etcd.write(key, lockid,
30, prevExists=False)` succeeds (`false`: the key already exists and the raw
already-exists error propagates), and `envUser` and `fqdn` feed
`get_lock_id`.  `timeoutTicks` is the caller timeout in 0.5 s ticks (`none`
when not given, in which case the deadline is `msg.ttl + 1` seconds, i.e.
`2 * (msg.ttl + 1)` ticks).  Returns the outcome, the state after the call and
the attempted store mutations in order. -/
def Locker.lock (st : LockerSt) (name : String) (user : Option String)
    (timeoutTicks : Option Nat) (readInit : Option Rec) (readAt : Nat → Option Rec)
    (createOk : Bool) (envUser : Option String) (fqdn : String) :
    LockResult × LockerSt × List StoreEff :=
  let key := makekey name
  if (st.locks.lookup key).isSome then
    (.tooManyLocks (name ++ " has already been locked by this test session"), st, [])
  else
    let msg :=
      match readInit with
      | some m =>
        pollCount readAt 0
          (match timeoutTicks with
           | some t => t
           | none => 2 * (m.ttl + 1)) m
      | none => none
    match msg with
    | some m => (.resourceLocked (name ++ " is currently locked by " ++ m.value), st, [])
    | none =>
      let lockid := get_lock_id user envUser fqdn
      if createOk then
        (.ok key lockid,
         { st with threadAlive := true, locks := st.locks ++ [(key, lockid)] },
         [.write key lockid (some lockTtl) false false])
      else
        (.alreadyExists key, st, [.write key lockid (some lockTtl) false false])

/-- Outcome of one `etcd.write(key, lockid, refresh=True)` in the keep-alive
loop: success, the record vanished (`etcd.EtcdKeyNotFound`), or any other
store error. -/
inductive RefreshOutcome
  | ok
  | keyNotFound
  | storeErr (e : String)
deriving DecidableEq

/-- Embeds the `for key, lockid in list(self.locker.locks.items())` loop of
`Locker._keepalive`: refresh writes are attempted in registry order and the
first raised store error aborts the loop, since no try/except surrounds the
body.  Returns the attempted writes and the escaping error, if any. -/
def keepaliveCycleRun (outcome : String → RefreshOutcome) :
    List (String × String) → List StoreEff × Option RefreshOutcome
  | [] => ([], none)
  | (key, lockid) :: rest =>
    match outcome key with
    | .ok =>
      let r := keepaliveCycleRun outcome rest
      (.write key lockid none false true :: r.1, r.2)
    | e => ([.write key lockid none false true], some e)

/-- Embeds the effect of one wake-up of `Locker._keepalive` with the stop
event not set: run the refresh cycle over the registry; an escaping error
terminates the thread (nothing in `_keepalive` catches it) and the loop never
modifies the registry. -/
def keepaliveCycleStep (st : LockerSt) (outcome : String → RefreshOutcome) :
    LockerSt × List StoreEff :=
  let r := keepaliveCycleRun outcome st.locks
  match r.2 with
  | none => (st, r.1)
  | some _ => ({ st with threadAlive := false }, r.1)

/-- Embeds `EtcdLocker.release(name)`: pick the key (the raw `name` when it is
itself a registry key, else the namespaced key), pop it, and delete the store
record only when a truthy lockid was popped; `etcd.EtcdKeyNotFound` from the
delete is swallowed.  Returns the new registry and the attempted store
mutations. -/
def EtcdLocker.release (locks : List (String × String)) (name : String) :
    List (String × String) × List StoreEff :=
  let key := if (locks.lookup name).isSome then name else makekey name
  match locks.lookup key with
  | some lockid =>
    (locks.eraseP (fun p => p.1 == key), if lockid = "" then [] else [.delete key])
  | none => (locks, [])

/-- Embeds the `for key in list(self.locker.locks)` loop of
`Locker.release_all`: release each key of the snapshot in order, threading the
registry through and accumulating the attempted mutations. -/
def releaseKeys (locks : List (String × String)) :
    List String → List (String × String) × List StoreEff
  | [] => (locks, [])
  | k :: rest =>
    let r := EtcdLocker.release locks k
    let r2 := releaseKeys r.1 rest
    (r2.1, r.2 ++ r2.2)

/-- Embeds `Locker.release_all()`: set the stop event, then release every key
of a snapshot of the registry. -/
def Locker.release_all (st : LockerSt) : LockerSt × List StoreEff :=
  let r := releaseKeys st.locks (st.locks.map (fun p => p.1))
  ({ st with stopSet := true, locks := r.1 }, r.2)

/-- Phase of one keep-alive thread: `idle` means blocked in
`self._stop.wait(self.ttl // 2)`, `cycling pending` means inside the for loop
with `pending` the not-yet-refreshed tail of the
`list(self.locker.locks.items())` snapshot, and `exited` means the thread has
terminated, so its `is_alive()` is false. -/
inductive KPhase
  | idle
  | cycling (pending : List (String × String))
  | exited
deriving DecidableEq

/-- The `Thread.is_alive()` of a thread in this phase. -/
def KPhase.isAlive : KPhase → Bool
  | .exited => false
  | _ => true

/-- Process state for the interleaved semantics: the registry, the stop event
and every keep-alive thread ever spawned, most recently spawned first (the
code keeps only the head in `self._thread`). -/
structure PState where
  locks : List (String × String)
  stopSet : Bool
  threads : List KPhase
deriving DecidableEq

/-- The state of a fresh `Locker`: empty registry, stop event clear, no
keep-alive thread spawned. -/
def pstateInit : PState := ⟨[], false, []⟩

/-- Embeds the guard `not self._thread or not self._thread.is_alive()` of
`Locker.lock`: spawn a new keep-alive thread exactly when none was ever
spawned or the most recently spawned one has exited. -/
def PState.needSpawn (s : PState) : Bool :=
  match s.threads.head? with
  | none => true
  | some ph => !ph.isAlive

/-- Number of currently alive keep-alive threads. -/
def PState.aliveCount (s : PState) : Nat :=
  (s.threads.filter KPhase.isAlive).length

/-- Observable events of the interleaved semantics.  The foreground events
(`acquired`, `released`, `releaseAllRet`) are lock-manager calls of the single
calling thread, run to completion; the `k…` events are the statement-level
steps of keep-alive thread `i`, which interleave with the foreground. -/
inductive Ev
  | acquired (name : String) (user envUser : Option String) (fqdn : String)
  | released (name : String)
  | releaseAllRet
  | kwake (i : Nat)
  | kstop (i : Nat)
  | krefresh (i : Nat) (key lockid : String)
  | krefreshFail (i : Nat) (key lockid : String)
  | kcycleEnd (i : Nat)
deriving DecidableEq

/-- Does this event attempt a store refresh write? -/
def Ev.isRefresh : Ev → Bool
  | .krefresh _ _ _ => true
  | .krefreshFail _ _ _ => true
  | _ => false

/-- One interleaving step.  `acquired` is a successful `Locker.lock` call (the
re-entry guard passed, the store create succeeded): it spawns a keep-alive
thread when `needSpawn` and appends to the registry.  `released` is an
`EtcdLocker.release` call.  `releaseAllRet` is a completed
`Locker.release_all` call, which only signals the stop event and never joins
the thread.  `kwake` is `self._stop.wait` timing out with the stop event
clear, upon which the loop body snapshots the registry; `kstop` is
`self._stop.wait` returning true, exiting the loop; `krefresh` is one
successful refresh write of the snapshot; `krefreshFail` is a refresh write
raising, which kills the thread; `kcycleEnd` finishes the snapshot loop and
returns to the wait. -/
inductive Step : PState → Ev → PState → Prop
  | acquired (s : PState) (name : String) (user envUser : Option String) (fqdn : String)
      (hfree : s.locks.lookup (makekey name) = none) :
      Step s (.acquired name user envUser fqdn)
        ⟨s.locks ++ [(makekey name, get_lock_id user envUser fqdn)], s.stopSet,
         if s.needSpawn then .idle :: s.threads else s.threads⟩
  | released (s : PState) (name : String) :
      Step s (.released name)
        ⟨(EtcdLocker.release s.locks name).1, s.stopSet, s.threads⟩
  | releaseAllRet (s : PState) :
      Step s .releaseAllRet
        ⟨(releaseKeys s.locks (s.locks.map (fun p => p.1))).1, true, s.threads⟩
  | kwake (s : PState) (i : Nat) (h : s.threads[i]? = some .idle)
      (hstop : s.stopSet = false) :
      Step s (.kwake i) ⟨s.locks, s.stopSet, s.threads.set i (.cycling s.locks)⟩
  | kstop (s : PState) (i : Nat) (h : s.threads[i]? = some .idle)
      (hstop : s.stopSet = true) :
      Step s (.kstop i) ⟨s.locks, s.stopSet, s.threads.set i .exited⟩
  | krefresh (s : PState) (i : Nat) (key lockid : String)
      (rest : List (String × String))
      (h : s.threads[i]? = some (.cycling ((key, lockid) :: rest))) :
      Step s (.krefresh i key lockid) ⟨s.locks, s.stopSet, s.threads.set i (.cycling rest)⟩
  | krefreshFail (s : PState) (i : Nat) (key lockid : String)
      (rest : List (String × String))
      (h : s.threads[i]? = some (.cycling ((key, lockid) :: rest))) :
      Step s (.krefreshFail i key lockid) ⟨s.locks, s.stopSet, s.threads.set i .exited⟩
  | kcycleEnd (s : PState) (i : Nat) (h : s.threads[i]? = some (.cycling [])) :
      Step s (.kcycleEnd i) ⟨s.locks, s.stopSet, s.threads.set i .idle⟩

/-- A finite run of the interleaved semantics with its event list. -/
inductive Trace : PState → List Ev → PState → Prop
  | nil (s : PState) : Trace s [] s
  | cons (s s' s'' : PState) (e : Ev) (es : List Ev) (hstep : Step s e s')
      (htr : Trace s' es s'') : Trace s (e :: es) s''

/-- Reachability from the fresh-locker state. -/
inductive Reach : PState → Prop
  | init : Reach pstateInit
  | step (s s' : PState) (e : Ev) (h : Reach s) (hs : Step s e s') : Reach s'

/-- Every thread other than the most recently spawned one has exited. -/
def PState.tailExited (s : PState) : Prop :=
  ∀ ph ∈ s.threads.drop 1, ph = KPhase.exited

/-- The event list of the run refuting the claim that no refresh attempt can
follow a completed `release_all` call: `release_all` returns while the
keep-alive thread holds a registry snapshot mid-cycle, and the unjoined thread
then refreshes the already-released key. -/
def c5trace : List Ev :=
  [.acquired "a" (some "u") none "h", .kwake 0, .releaseAllRet,
   .krefresh 0 "lab/locks/a" "u@h", .kcycleEnd 0, .kstop 0]

/-! ## C9: the lock-key namespace -/

/-- C9 counterexample: the claim quantifies over every resource name, but for
a name beginning with a slash `posixpath.join` discards the `lab/locks`
namespace entirely, so the computed key is not under the prefix
`lab/locks/`. -/
theorem C9_counterexample :
    makekey "/other" = "/other" ∧ startswith (makekey "/other") "lab/locks/" = false := by
  constructor <;> decide

/-- C9 (amended): for every resource name that does not begin with a slash,
the store key computed by `EtcdLocker._makekey` is `lab/locks/<name>`, hence
it lies under the fixed prefix `lab/locks/`; a name beginning with a slash
instead replaces the namespace wholesale. -/
theorem C9_lockKeyNamespace (name : String) (h : startswith name "/" = false) :
    makekey name = "lab/locks/" ++ name := by
  unfold makekey
  rw [(by decide : pjoin2 "lab" "locks" = "lab/locks")]
  unfold pjoin2
  rw [h]
  rw [(by decide : (("lab/locks" = "" || endswith "lab/locks" "/") : Bool) = false)]
  simp only [Bool.false_eq_true, if_false]
  rw [(by decide : ("lab/locks" ++ "/" : String) = "lab/locks/")]

/-- C9 witness: an ordinary resource name lands under the prefix. -/
theorem C9_lockKeyNamespace_witness :
    startswith "rack3" "/" = false ∧ makekey "rack3" = "lab/locks/rack3" :=
  ⟨by decide, (C9_lockKeyNamespace "rack3" (by decide)).trans (by decide)⟩

/-! ## C10: the holder identity -/

/-- C10 counterexample: with the `user` argument falsy and the `USER`
environment variable set to the empty string, the identity is `@<fqdn>` and
its user component (the text before the `@`) is empty, refuting the claim
that the user component is never empty. -/
theorem C10_counterexample :
    get_lock_id none (some "") "box.lan" = "@box.lan"
    ∧ "@box.lan".data.takeWhile (fun c => c != '@') = [] := by
  constructor <;> decide

/-- C10 (amended): `get_lock_id` returns `<user>@<fqdn>`; a falsy `user`
argument falls back to the `USER` environment variable, and an unset variable
falls back to `"anonymous"`, so the user component is non-empty whenever the
`USER` variable, if set, is non-empty (with `USER` set to the empty string and
a falsy `user` the component is empty). -/
theorem C10_holderIdentity (user envUser : Option String) (fqdn : String) :
    (∀ s, user = some s → s ≠ "" → get_lock_id user envUser fqdn = s ++ "@" ++ fqdn)
    ∧ (∀ e, (user = none ∨ user = some "") → envUser = some e →
        get_lock_id user envUser fqdn = e ++ "@" ++ fqdn)
    ∧ ((user = none ∨ user = some "") → envUser = none →
        get_lock_id user envUser fqdn = "anonymous" ++ "@" ++ fqdn)
    ∧ (envUser ≠ some "" →
        ∃ u, u ≠ "" ∧ get_lock_id user envUser fqdn = u ++ "@" ++ fqdn) := by
  refine ⟨?_, ?_, ?_, ?_⟩
  · rintro s rfl hs
    simp [get_lock_id, orFalsy, hs]
  · rintro e (rfl | rfl) rfl <;> simp [get_lock_id, orFalsy]
  · rintro (rfl | rfl) rfl <;> simp [get_lock_id, orFalsy]
  · intro henv
    refine ⟨orFalsy user (envUser.getD "anonymous"), ?_, rfl⟩
    cases user with
    | none =>
      cases envUser with
      | none => simp [orFalsy]
      | some e =>
        have he : e ≠ "" := fun h => henv (by rw [h])
        simpa [orFalsy] using he
    | some s =>
      by_cases hs : s = ""
      · subst hs
        cases envUser with
        | none => simp [orFalsy]
        | some e =>
          have he : e ≠ "" := fun h => henv (by rw [h])
          simpa [orFalsy] using he
      · simp [orFalsy, hs]

/-- C10 witness: the three fallback layers and the non-emptiness conclusion at
concrete inputs. -/
theorem C10_holderIdentity_witness :
    get_lock_id (some "alice") none "box.lan" = "alice@box.lan"
    ∧ get_lock_id none (some "bob") "box.lan" = "bob@box.lan"
    ∧ get_lock_id (some "") none "box.lan" = "anonymous@box.lan"
    ∧ ∃ u, u ≠ "" ∧ get_lock_id none none "box.lan" = u ++ "@" ++ "box.lan" := by
  refine ⟨?_, ?_, ?_, ?_⟩
  · exact ((C10_holderIdentity (some "alice") none "box.lan").1 "alice" rfl
      (by decide)).trans (by decide)
  · exact ((C10_holderIdentity none (some "bob") "box.lan").2.1 "bob" (Or.inl rfl)
      rfl).trans (by decide)
  · exact ((C10_holderIdentity (some "") none "box.lan").2.2.1 (Or.inr rfl)
      rfl).trans (by decide)
  · exact (C10_holderIdentity none none "box.lan").2.2.2 (by simp)

/-! ## C1: no re-entrant acquire -/

/-- C1: when the namespaced key is already in the local registry,
`Locker.lock` raises `TooManyLocks` with the formatted message, returns the
process state unchanged (registry entry and holder intact) and attempts no
store mutation whatsoever, so the store record is untouched: re-acquire is an
error, never a silent idempotent success. -/
theorem C1_noReentry (st : LockerSt) (name : String) (user : Option String)
    (timeoutTicks : Option Nat) (readInit : Option Rec) (readAt : Nat → Option Rec)
    (createOk : Bool) (envUser : Option String) (fqdn : String)
    (h : (st.locks.lookup (makekey name)).isSome = true) :
    Locker.lock st name user timeoutTicks readInit readAt createOk envUser fqdn =
      (.tooManyLocks (name ++ " has already been locked by this test session"), st, []) := by
  unfold Locker.lock
  simp [h]

/-- C1 witness: re-acquiring `res` while `lab/locks/res` is registered fails
with `TooManyLocks` and changes nothing. -/
theorem C1_noReentry_witness :
    (([("lab/locks/res", "alice@box")] : List (String × String)).lookup
        (makekey "res")).isSome = true
    ∧ Locker.lock ⟨[("lab/locks/res", "alice@box")], true, false⟩ "res" none none none
        (fun _ => none) true none "box"
      = (.tooManyLocks "res has already been locked by this test session",
         ⟨[("lab/locks/res", "alice@box")], true, false⟩, []) := by
  refine ⟨by decide, ?_⟩
  exact (C1_noReentry ⟨[("lab/locks/res", "alice@box")], true, false⟩ "res" none none none
    (fun _ => none) true none "box" (by decide)).trans (by decide)

/-! ## C3: the create race -/

/-- C3 counterexample: when the atomic create-if-absent loses the race
(`createOk = false`), `Locker.lock` does not fail with `ResourceLocked` at
all — the raw etcd already-exists error propagates uncaught, carrying no
holder identity. -/
theorem C3_counterexample :
    (Locker.lock ⟨[], false, false⟩ "res" none none none (fun _ => none) false
        none "box").1 = .alreadyExists "lab/locks/res"
    ∧ ((Locker.lock ⟨[], false, false⟩ "res" none none none (fun _ => none) false
        none "box").1).isResourceLocked = false := by
  constructor <;> decide

/-- C3 (amended): when the create-if-absent write fails because the key
already exists, the raw store already-exists error propagates immediately —
without re-entering the wait loop, without conversion to `ResourceLocked` and
without holder identity — and the local state is left unchanged; the only
store interaction is the single failed create attempt. -/
theorem C3_createRace (st : LockerSt) (name : String) (user envUser : Option String)
    (fqdn : String) (timeoutTicks : Option Nat) (readAt : Nat → Option Rec)
    (hfree : st.locks.lookup (makekey name) = none) :
    Locker.lock st name user timeoutTicks none readAt false envUser fqdn =
      (.alreadyExists (makekey name), st,
       [.write (makekey name) (get_lock_id user envUser fqdn) (some lockTtl) false false]) := by
  unfold Locker.lock
  simp [hfree]

/-- C3 witness: a lost create race on a fresh key propagates the raw
already-exists error. -/
theorem C3_createRace_witness :
    (([] : List (String × String)).lookup (makekey "res") = none)
    ∧ Locker.lock ⟨[], false, false⟩ "res" none none none (fun _ => none) false none "box"
      = (.alreadyExists "lab/locks/res", ⟨[], false, false⟩,
         [.write "lab/locks/res" "anonymous@box" (some lockTtl) false false]) := by
  refine ⟨by decide, ?_⟩
  exact (C3_createRace ⟨[], false, false⟩ "res" none none "box" none (fun _ => none)
    (by decide)).trans (by decide)

/-! ## C4: keep-alive refresh failure -/

/-- Helper: the refresh loop of `_keepalive` over a registry whose prefix
refreshes cleanly and whose next key raises: the attempted writes are exactly
the prefix refreshes plus the failing one, and the error escapes. -/
theorem keepaliveCycleRun_fail (outcome : String → RefreshOutcome)
    (k lockid : String) (post : List (String × String)) (hk : outcome k ≠ .ok) :
    ∀ (pre : List (String × String)), (∀ p ∈ pre, outcome p.1 = .ok) →
      keepaliveCycleRun outcome (pre ++ (k, lockid) :: post) =
        (pre.map (fun p => StoreEff.write p.1 p.2 none false true) ++
          [.write k lockid none false true], some (outcome k)) := by
  intro pre
  induction pre with
  | nil =>
    intro _
    cases ho : outcome k with
    | ok => exact absurd ho hk
    | keyNotFound => simp [keepaliveCycleRun, ho]
    | storeErr e => simp [keepaliveCycleRun, ho]
  | cons p ps ih =>
    intro hpre
    obtain ⟨k0, l0⟩ := p
    have h0 : outcome k0 = .ok := hpre (k0, l0) (List.mem_cons_self _ _)
    simp only [List.cons_append, keepaliveCycleRun, h0, List.append_eq,
      ih (fun q hq => hpre q (List.mem_cons_of_mem _ hq)), List.map_cons]

/-- C4 counterexample: a keep-alive refresh that finds the record vanished
does not remove the key from the local registry and does terminate the
background thread: the error escapes the loop uncaught. -/
theorem C4_counterexample :
    (keepaliveCycleStep ⟨[("lab/locks/res", "alice@box")], true, false⟩
        (fun _ => .keyNotFound)).1.locks = [("lab/locks/res", "alice@box")]
    ∧ (keepaliveCycleStep ⟨[("lab/locks/res", "alice@box")], true, false⟩
        (fun _ => .keyNotFound)).1.threadAlive = false := by
  constructor <;> decide

/-- C4 (amended): when a refresh in the keep-alive cycle raises — because the
record vanished or on any other store error — the exception propagates out of
the unprotected loop: the keep-alive thread terminates, the registry is left
unchanged (the lost key is not removed), and the keys after the failing one in
that cycle are not refreshed. -/
theorem C4_keepaliveFailure (st : LockerSt) (outcome : String → RefreshOutcome)
    (pre post : List (String × String)) (k lockid : String)
    (hsplit : st.locks = pre ++ (k, lockid) :: post)
    (hpre : ∀ p ∈ pre, outcome p.1 = .ok)
    (hk : outcome k ≠ .ok) :
    (keepaliveCycleStep st outcome).1.locks = st.locks
    ∧ (keepaliveCycleStep st outcome).1.threadAlive = false
    ∧ (keepaliveCycleStep st outcome).2 =
        pre.map (fun p => StoreEff.write p.1 p.2 none false true) ++
          [.write k lockid none false true] := by
  have hrun := keepaliveCycleRun_fail outcome k lockid post hk pre hpre
  rw [← hsplit] at hrun
  unfold keepaliveCycleStep
  rw [hrun]
  simp

/-- C4 witness: the vanished-record refresh at a concrete one-entry registry
kills the thread and leaves the entry in place. -/
theorem C4_keepaliveFailure_witness :
    (keepaliveCycleStep ⟨[("lab/locks/a", "u@box")], true, false⟩
        (fun _ => .keyNotFound)).1.locks = [("lab/locks/a", "u@box")]
    ∧ (keepaliveCycleStep ⟨[("lab/locks/a", "u@box")], true, false⟩
        (fun _ => .keyNotFound)).1.threadAlive = false
    ∧ (keepaliveCycleStep ⟨[("lab/locks/a", "u@box")], true, false⟩
        (fun _ => .keyNotFound)).2 = [.write "lab/locks/a" "u@box" none false true] := by
  have h := C4_keepaliveFailure ⟨[("lab/locks/a", "u@box")], true, false⟩
    (fun _ => .keyNotFound) [] [] "lab/locks/a" "u@box" rfl (by simp) (by decide)
  exact ⟨h.1, h.2.1, h.2.2.trans (by decide)⟩

/-! ## C7: discovery ordering -/

/-- Helper: `charListLe` is total. -/
theorem charListLe_total (a : List Char) : ∀ b, (charListLe a b || charListLe b a) = true := by
  induction a with
  | nil => intro b; simp [charListLe]
  | cons x xs ih =>
    intro b
    cases b with
    | nil => simp [charListLe]
    | cons y ys =>
      simp only [charListLe, Bool.or_eq_true, Bool.and_eq_true, decide_eq_true_eq,
        beq_iff_eq]
      rcases lt_trichotomy x y with h | h | h
      · exact Or.inl (Or.inl h)
      · subst h
        have h2 := ih ys
        simp only [Bool.or_eq_true] at h2
        rcases h2 with h2 | h2
        · exact Or.inl (Or.inr ⟨rfl, h2⟩)
        · exact Or.inr (Or.inr ⟨rfl, h2⟩)
      · exact Or.inr (Or.inl h)

/-- Helper: `charListLe` is transitive. -/
theorem charListLe_trans :
    ∀ (a b c : List Char), charListLe a b = true → charListLe b c = true →
      charListLe a c = true := by
  intro a
  induction a with
  | nil => intro b c _ _; simp [charListLe]
  | cons x xs ih =>
    intro b c hab hbc
    cases b with
    | nil => simp [charListLe] at hab
    | cons y ys =>
      cases c with
      | nil => simp [charListLe] at hbc
      | cons z zs =>
        simp only [charListLe, Bool.or_eq_true, Bool.and_eq_true, decide_eq_true_eq,
          beq_iff_eq] at hab hbc ⊢
        rcases hab with hab | ⟨rfl, hab⟩
        · rcases hbc with hbc | ⟨rfl, _⟩
          · exact Or.inl (lt_trans hab hbc)
          · exact Or.inl hab
        · rcases hbc with hbc | ⟨rfl, hbc⟩
          · exact Or.inl hbc
          · exact Or.inr ⟨rfl, ih ys zs hab hbc⟩

/-- Helper: the SRV comparison is total. -/
theorem srvLe_total (a b : SRV) : (srvLe a b || srvLe b a) = true := by
  simp only [srvLe, Bool.or_eq_true, Bool.and_eq_true, decide_eq_true_eq, beq_iff_eq]
  by_cases hp : a.priority = b.priority
  · by_cases hw : a.weight = b.weight
    · have hc := charListLe_total a.host.data b.host.data
      simp only [Bool.or_eq_true] at hc
      rcases hc with hc | hc
      · exact Or.inl (Or.inr ⟨hp, Or.inr ⟨hw, hc⟩⟩)
      · exact Or.inr (Or.inr ⟨hp.symm, Or.inr ⟨hw.symm, hc⟩⟩)
    · rcases Nat.lt_or_ge a.weight b.weight with h | h
      · exact Or.inr (Or.inr ⟨hp.symm, Or.inl h⟩)
      · exact Or.inl (Or.inr ⟨hp, Or.inl (lt_of_le_of_ne h (Ne.symm hw))⟩)
  · rcases Nat.lt_or_ge a.priority b.priority with h | h
    · exact Or.inl (Or.inl h)
    · exact Or.inr (Or.inl (lt_of_le_of_ne h (Ne.symm hp)))

/-- Helper: the SRV comparison is transitive. -/
theorem srvLe_trans (a b c : SRV) (hab : srvLe a b = true) (hbc : srvLe b c = true) :
    srvLe a c = true := by
  simp only [srvLe, Bool.or_eq_true, Bool.and_eq_true, decide_eq_true_eq,
    beq_iff_eq] at hab hbc ⊢
  rcases hab with hab | ⟨hp1, hab⟩
  · rcases hbc with hbc | ⟨hp2, _⟩
    · exact Or.inl (lt_trans hab hbc)
    · exact Or.inl (hp2 ▸ hab)
  · rcases hbc with hbc | ⟨hp2, hbc⟩
    · exact Or.inl (hp1 ▸ hbc)
    · refine Or.inr ⟨hp1.trans hp2, ?_⟩
      rcases hab with hab | ⟨hw1, hab⟩
      · rcases hbc with hbc | ⟨hw2, _⟩
        · exact Or.inl (lt_trans hbc hab)
        · exact Or.inl (hw2 ▸ hab)
      · rcases hbc with hbc | ⟨hw2, hbc⟩
        · exact Or.inl (hw1 ▸ hbc)
        · exact Or.inr ⟨hw1.trans hw2, charListLe_trans _ _ _ hab hbc⟩

/-- C7: for every DNS SRV answer set, `query_etcd_server` returns the result
set — one endpoint per resolved address — as a permutation sorted by priority
ascending, then weight descending, then host ascending; in particular for the
answers `(p=1,w=5,h=a)`, `(p=1,w=10,h=b)`, `(p=2,w=1,h=c)` it returns
`[b, a, c]`. -/
theorem C7_discoveryOrder (answer : List AnswerRec) (additional : List AdditionalRec) :
    (query_etcd_server answer additional).Pairwise (fun a b => srvLe a b = true)
    ∧ (query_etcd_server answer additional).Perm (build_result_set answer additional)
    ∧ query_etcd_server
        [⟨"a", 2379, 1, 5⟩, ⟨"b", 2379, 1, 10⟩, ⟨"c", 2379, 2, 1⟩] []
      = [⟨"b", 2379, 1, 10⟩, ⟨"a", 2379, 1, 5⟩, ⟨"c", 2379, 2, 1⟩] := by
  refine ⟨List.sorted_mergeSort srvLe_trans srvLe_total _, List.mergeSort_perm _ _, ?_⟩
  have hres : build_result_set
      [⟨"a", 2379, 1, 5⟩, ⟨"b", 2379, 1, 10⟩, ⟨"c", 2379, 2, 1⟩] [] =
      [⟨"a", 2379, 1, 5⟩, ⟨"b", 2379, 1, 10⟩, ⟨"c", 2379, 2, 1⟩] := by decide
  unfold query_etcd_server
  rw [hres]
  simp [List.mergeSort, List.merge, srvLe, charListLe]

/-! ## C2: the contention wait -/

/-- Helper: when every read up to the deadline still finds a record, the wait
loop runs to the deadline and ends with the record of the final read. -/
theorem pollCount_present (readAt : Nat → Option Rec) (g : Nat → Rec) :
    ∀ (n k : Nat) (msg : Rec), 0 < n →
      (∀ j, k ≤ j → j < k + n → readAt j = some (g j)) →
      pollCount readAt k n msg = some (g (k + n - 1)) := by
  intro n
  induction n with
  | zero => intro k msg h; omega
  | succ m ih =>
    intro k msg _ h
    have hk : readAt k = some (g k) := h k le_rfl (by omega)
    cases m with
    | zero => simp [pollCount, hk]
    | succ m' =>
      have hrec := ih (k + 1) (g k) (by omega) (fun j hj1 hj2 => h j (by omega) (by omega))
      rw [show k + 1 + (m' + 1) - 1 = k + (m' + 1 + 1) - 1 from by omega] at hrec
      show (match readAt k with
        | none => none
        | some m => pollCount readAt (k + 1) (m' + 1) m) = some (g (k + (m' + 1 + 1) - 1))
      rw [hk]
      exact hrec

/-- Helper: when the read of iteration `j0` (inside the deadline) finds the
record gone and every earlier read found it present, the wait loop breaks with
`msg = None`. -/
theorem pollCount_vanish (readAt : Nat → Option Rec) :
    ∀ (j0 n k : Nat) (msg : Rec), j0 < n → readAt (k + j0) = none →
      (∀ j, j < j0 → (readAt (k + j)).isSome = true) →
      pollCount readAt k n msg = none := by
  intro j0
  induction j0 with
  | zero =>
    intro n k msg hn h0 _
    cases n with
    | zero => omega
    | succ m =>
      rw [Nat.add_zero] at h0
      simp [pollCount, h0]
  | succ j ih =>
    intro n k msg hn h0 hsome
    cases n with
    | zero => omega
    | succ m =>
      have h := hsome 0 (by omega)
      rw [Nat.add_zero] at h
      obtain ⟨m0, hm0⟩ := Option.isSome_iff_exists.mp h
      simp only [pollCount, hm0]
      refine ih m (k + 1) m0 (by omega) ?_ ?_
      · rw [show k + 1 + j = k + (j + 1) from by omega]; exact h0
      · intro j' hj'
        rw [show k + 1 + j' = k + (j' + 1) from by omega]
        exact hsome (j' + 1) (by omega)

/-- C2: on acquiring a key currently held by another holder with no caller
timeout, the wait deadline is the remaining TTL of the record plus one second
— `2 * (ttl + 1)` ticks of the fixed 0.5 s poll interval — and: (i) when every
poll up to the deadline still finds a record, the call fails with
`ResourceLocked` surfacing the holder identity of the final read, leaving
state and store untouched; (ii) when a poll inside the deadline finds the
record gone, the call proceeds to the create step and (the create succeeding)
acquires the lock. -/
theorem C2_defaultWait (st : LockerSt) (name : String) (user envUser : Option String)
    (fqdn : String) (rec0 : Rec) (readAt : Nat → Option Rec) (createOk : Bool)
    (g : Nat → Rec) (hfree : st.locks.lookup (makekey name) = none) :
    ((∀ j, j < 2 * (rec0.ttl + 1) → readAt j = some (g j)) →
      Locker.lock st name user none (some rec0) readAt createOk envUser fqdn =
        (.resourceLocked (name ++ " is currently locked by " ++ (g (2 * rec0.ttl + 1)).value),
         st, []))
    ∧ (∀ j0, j0 < 2 * (rec0.ttl + 1) → readAt j0 = none →
        (∀ j, j < j0 → (readAt j).isSome = true) →
        Locker.lock st name user none (some rec0) readAt true envUser fqdn =
          (.ok (makekey name) (get_lock_id user envUser fqdn),
           { st with threadAlive := true,
                     locks := st.locks ++ [(makekey name, get_lock_id user envUser fqdn)] },
           [.write (makekey name) (get_lock_id user envUser fqdn) (some lockTtl) false false])) := by
  constructor
  · intro hpresent
    have hpoll : pollCount readAt 0 (2 * (rec0.ttl + 1)) rec0 =
        some (g (2 * rec0.ttl + 1)) := by
      have hp := pollCount_present readAt g (2 * (rec0.ttl + 1)) 0 rec0 (by omega)
        (fun j hj1 hj2 => hpresent j (by omega))
      rw [show 0 + 2 * (rec0.ttl + 1) - 1 = 2 * rec0.ttl + 1 from by omega] at hp
      exact hp
    unfold Locker.lock
    simp [hfree, hpoll]
  · intro j0 hj0 hnone hsome
    have hpoll : pollCount readAt 0 (2 * (rec0.ttl + 1)) rec0 = none := by
      refine pollCount_vanish readAt j0 (2 * (rec0.ttl + 1)) 0 rec0 hj0 ?_ ?_
      · rw [Nat.zero_add]; exact hnone
      · intro j hj; rw [Nat.zero_add]; exact hsome j hj
    unfold Locker.lock
    simp [hfree, hpoll]

/-- C2 witness: a record with 0 s remaining TTL gives a two-tick deadline; a
record that never vanishes yields `ResourceLocked` with the holder identity,
and a record gone at the first poll yields a successful acquisition. -/
theorem C2_defaultWait_witness :
    Locker.lock ⟨[], false, false⟩ "res" none none (some ⟨"bob@box", 0⟩)
        (fun _ => some ⟨"bob@box", 0⟩) true none "box"
      = (.resourceLocked "res is currently locked by bob@box", ⟨[], false, false⟩, [])
    ∧ Locker.lock ⟨[], false, false⟩ "res" none none (some ⟨"bob@box", 0⟩)
        (fun _ => none) true none "box"
      = (.ok "lab/locks/res" "anonymous@box",
         ⟨[("lab/locks/res", "anonymous@box")], true, false⟩,
         [.write "lab/locks/res" "anonymous@box" (some lockTtl) false false]) := by
  constructor
  · exact ((C2_defaultWait ⟨[], false, false⟩ "res" none none "box" ⟨"bob@box", 0⟩
      (fun _ => some ⟨"bob@box", 0⟩) true (fun _ => ⟨"bob@box", 0⟩) (by decide)).1
      (fun j hj => rfl)).trans (by decide)
  · exact ((C2_defaultWait ⟨[], false, false⟩ "res" none none "box" ⟨"bob@box", 0⟩
      (fun _ => none) true (fun _ => ⟨"bob@box", 0⟩) (by decide)).2
      0 (by decide) rfl (fun j hj => absurd hj (Nat.not_lt_zero j))).trans (by decide)

/-! ## C8: connection fallback -/

/-- Helper: the connect loop returns the first endpoint whose connection
attempt succeeds. -/
theorem connectLoop_firstSuccess (attempt : SRV → Option String) (r : SRV)
    (rest : List SRV) (hr : attempt r = none) :
    ∀ (pre : List SRV) (err : Option String), (∀ p ∈ pre, (attempt p).isSome = true) →
      connectLoop attempt err (pre ++ r :: rest) = .client r := by
  intro pre
  induction pre with
  | nil => intro err _; simp [connectLoop, hr]
  | cons p ps ih =>
    intro err hpre
    obtain ⟨e, he⟩ := Option.isSome_iff_exists.mp (hpre p (List.mem_cons_self _ _))
    simp only [List.cons_append, connectLoop, he]
    exact ih (some e) (fun q hq => hpre q (List.mem_cons_of_mem _ hq))

/-- Helper: when every attempt fails, the connect loop re-raises the last
collected error, or the bare `RuntimeError` when there was none. -/
theorem connectLoop_allFail (attempt : SRV → Option String) :
    ∀ (l : List SRV) (err : Option String), (∀ p ∈ l, (attempt p).isSome = true) →
      connectLoop attempt err l =
        match (l.filterMap attempt).getLast? with
        | some e => .raised e
        | none =>
          match err with
          | some e => .raised e
          | none => .runtimeError "What happened?" := by
  intro l
  induction l with
  | nil => intro err _; simp [connectLoop]
  | cons p ps ih =>
    intro err hall
    obtain ⟨e, he⟩ := Option.isSome_iff_exists.mp (hall p (List.mem_cons_self _ _))
    have hrec := ih (some e) (fun q hq => hall q (List.mem_cons_of_mem _ hq))
    have hlhs : connectLoop attempt err (p :: ps) = connectLoop attempt (some e) ps := by
      simp [connectLoop, he]
    have hfm : (p :: ps).filterMap attempt = e :: ps.filterMap attempt := by
      simp [List.filterMap_cons, he]
    rw [hlhs, hrec, hfm]
    cases hx : ps.filterMap attempt with
    | nil => rfl
    | cons x xs =>
      rw [List.getLast?_cons_cons]
      cases hy : (x :: xs).getLast? with
      | none => exact absurd (List.getLast?_eq_none_iff.mp hy) (by simp)
      | some y => rfl

/-- C8 counterexample: with zero discovered endpoints `connect_to_etcd` raises
the bare `RuntimeError`, while with one endpoint whose attempt fails it
re-raises that raw connection error — two different error kinds, and neither
is a wrapping `StoreUnavailable`-style error. -/
theorem C8_counterexample :
    connect_to_etcd (fun _ => some "connection refused") [] =
      .runtimeError "What happened?"
    ∧ connect_to_etcd (fun _ => some "connection refused") [⟨"h", 2379, 0, 0⟩] =
      .raised "connection refused"
    ∧ (ConnResult.runtimeError "What happened?").kind ≠
        (ConnResult.raised "connection refused").kind := by
  refine ⟨rfl, rfl, by decide⟩

/-- C8 (amended): `connect_to_etcd` attempts the discovered endpoints in their
returned order and returns the client of the first successful attempt; when
every attempt fails it re-raises the last connection error itself, unwrapped,
and when discovery yields zero endpoints it raises the distinct bare
`RuntimeError` (no `StoreUnavailable` kind exists in the code). -/
theorem C8_connectFallback (attempt : SRV → Option String) (endpoints : List SRV) :
    (∀ (pre : List SRV) (r : SRV) (rest : List SRV), endpoints = pre ++ r :: rest →
      (∀ p ∈ pre, (attempt p).isSome = true) → attempt r = none →
      connect_to_etcd attempt endpoints = .client r)
    ∧ ((∀ p ∈ endpoints, (attempt p).isSome = true) →
      connect_to_etcd attempt endpoints =
        match (endpoints.filterMap attempt).getLast? with
        | some e => .raised e
        | none => .runtimeError "What happened?") := by
  constructor
  · intro pre r rest hsplit hpre hr
    rw [hsplit]
    exact connectLoop_firstSuccess attempt r rest hr pre none hpre
  · intro hall
    exact connectLoop_allFail attempt endpoints none hall

/-- C8 witness: concrete endpoint lists exercising the first-success path and
the all-fail path with its re-raised last error. -/
theorem C8_connectFallback_witness :
    connect_to_etcd (fun r => if r.host = "good" then none else some ("refused by " ++ r.host))
      [⟨"bad1", 2379, 1, 1⟩, ⟨"good", 2379, 1, 1⟩, ⟨"bad2", 2379, 1, 1⟩]
      = .client ⟨"good", 2379, 1, 1⟩
    ∧ connect_to_etcd (fun r => some ("refused by " ++ r.host))
        [⟨"h1", 2379, 1, 1⟩, ⟨"h2", 2379, 1, 1⟩]
      = .raised "refused by h2" := by
  constructor
  · exact (C8_connectFallback
      (fun r => if r.host = "good" then none else some ("refused by " ++ r.host))
      [⟨"bad1", 2379, 1, 1⟩, ⟨"good", 2379, 1, 1⟩, ⟨"bad2", 2379, 1, 1⟩]).1
      [⟨"bad1", 2379, 1, 1⟩] ⟨"good", 2379, 1, 1⟩ [⟨"bad2", 2379, 1, 1⟩] rfl
      (by decide) (by decide)
  · exact ((C8_connectFallback (fun r => some ("refused by " ++ r.host))
      [⟨"h1", 2379, 1, 1⟩, ⟨"h2", 2379, 1, 1⟩]).2 (by decide)).trans (by decide)

/-! ## C5: release-all semantics -/

/-- Helper: releasing, by its exact registry key, the head entry of the
registry pops that entry and deletes the store record (the lockid being
truthy). -/
theorem release_head (k v : String) (rest : List (String × String)) (hv : v ≠ "") :
    EtcdLocker.release ((k, v) :: rest) k = (rest, [.delete k]) := by
  unfold EtcdLocker.release
  simp [List.lookup_cons_self, hv]

/-- Helper: releasing every snapshot key of the registry empties it and
deletes each record in order. -/
theorem releaseKeys_all :
    ∀ (locks : List (String × String)), (∀ p ∈ locks, p.2 ≠ "") →
      releaseKeys locks (locks.map (fun p => p.1)) =
        ([], locks.map (fun p => StoreEff.delete p.1)) := by
  intro locks
  induction locks with
  | nil => intro _; rfl
  | cons p rest ih =>
    intro hv
    obtain ⟨k, v⟩ := p
    have hrel : EtcdLocker.release ((k, v) :: rest) k = (rest, [.delete k]) :=
      release_head k v rest (hv (k, v) (List.mem_cons_self _ _))
    simp only [List.map_cons, releaseKeys, hrel,
      ih (fun q hq => hv q (List.mem_cons_of_mem _ hq))]
    rfl

/-- C5 counterexample: a valid interleaving in which `release_all` returns
(event index 2) and the unjoined keep-alive thread, already holding a registry
snapshot taken before the stop signal, still issues a refresh attempt
afterwards (event index 3) — refuting the signal-then-join reading under which
no refresh attempt can follow the call. -/
theorem C5_counterexample :
    Trace pstateInit c5trace ⟨[], true, [.exited]⟩
    ∧ c5trace[2]? = some .releaseAllRet
    ∧ c5trace[3]?.map Ev.isRefresh = some true := by
  refine ⟨?_, rfl, rfl⟩
  refine Trace.cons _ _ _ _ _ (Step.acquired pstateInit "a" (some "u") none "h" rfl) ?_
  refine Trace.cons _ _ _ _ _ (Step.kwake _ 0 rfl rfl) ?_
  refine Trace.cons _ _ _ _ _ (Step.releaseAllRet _) ?_
  refine Trace.cons _ _ _ _ _ (Step.krefresh _ 0 "lab/locks/a" "u@h" [] rfl) ?_
  refine Trace.cons _ _ _ _ _ (Step.kcycleEnd _ 0 rfl) ?_
  refine Trace.cons _ _ _ _ _ (Step.kstop _ 0 rfl rfl) ?_
  exact Trace.nil _

/-- C5 (amended): after `release_all` returns, the local registry is empty,
the stop event is set and one store delete was attempted for every key held at
the time of the call; the stop signal is never cleared and no keep-alive
thread can begin a new wait-loop cycle once it is set — but the thread is
signalled, not joined, so a refresh from a cycle already in flight may still
occur after the call returns. -/
theorem C5_releaseAll (st : LockerSt) (hval : ∀ p ∈ st.locks, p.2 ≠ "") :
    Locker.release_all st =
      ({ st with stopSet := true, locks := [] },
       st.locks.map (fun p => StoreEff.delete p.1))
    ∧ (∀ (s s' : PState) (i : Nat), s.stopSet = true → ¬ Step s (.kwake i) s')
    ∧ (∀ (s s' : PState) (e : Ev), Step s e s' → s.stopSet = true →
        s'.stopSet = true) := by
  refine ⟨?_, ?_, ?_⟩
  · unfold Locker.release_all
    rw [releaseKeys_all st.locks hval]
  · intro s s' i hstop hstep
    cases hstep with
    | kwake _ h hs => rw [hstop] at hs; exact absurd hs (by decide)
  · intro s s' e hstep hstop
    cases hstep <;> simp [hstop]

/-- C5 witness: a one-entry registry is emptied with its record deleted, and a
concrete stopped state admits no new cycle start. -/
theorem C5_releaseAll_witness :
    Locker.release_all ⟨[("lab/locks/a", "u@box")], true, false⟩
      = (⟨[], true, true⟩, [.delete "lab/locks/a"])
    ∧ ¬ Step ⟨[], true, [.idle]⟩ (.kwake 0) ⟨[], true, [.cycling []]⟩ := by
  have h := C5_releaseAll ⟨[("lab/locks/a", "u@box")], true, false⟩ (by decide)
  exact ⟨h.1.trans (by decide), h.2.1 ⟨[], true, [.idle]⟩ ⟨[], true, [.cycling []]⟩ 0 rfl⟩

/-! ## C6: keep-alive lifecycle -/

/-- Helper: the initial state satisfies the tail-exited invariant. -/
theorem tailExited_init : pstateInit.tailExited := by
  intro ph h
  simp [pstateInit] at h

/-- Helper: when the spawn guard of `Locker.lock` fires, every thread ever
spawned has exited. -/
theorem allExited_of_needSpawn (s : PState) (h : s.needSpawn = true)
    (hinv : s.tailExited) : ∀ ph ∈ s.threads, ph = KPhase.exited := by
  intro ph hm
  cases hth : s.threads with
  | nil => rw [hth] at hm; simp at hm
  | cons h0 t =>
    rw [hth] at hm
    rcases List.mem_cons.mp hm with rfl | hm'
    · unfold PState.needSpawn at h
      rw [hth] at h
      simp only [List.head?_cons] at h
      cases ph with
      | idle => simp [KPhase.isAlive] at h
      | cycling l => simp [KPhase.isAlive] at h
      | exited => rfl
    · refine hinv ph ?_
      rw [hth]
      exact hm'

/-- Helper: under the tail-exited invariant an alive thread can only sit at
index 0. -/
theorem alive_index_zero (s : PState) (hinv : s.tailExited) (i : Nat) (ph : KPhase)
    (h : s.threads[i]? = some ph) (halive : ph.isAlive = true) : i = 0 := by
  by_contra hne
  have hdrop : (s.threads.drop 1)[i - 1]? = some ph := by
    rw [List.getElem?_drop]
    rw [show 1 + (i - 1) = i from by omega]
    exact h
  have hex : ph = KPhase.exited := hinv ph (List.getElem?_mem hdrop)
  rw [hex] at halive
  simp [KPhase.isAlive] at halive

/-- Helper: re-phasing an alive thread preserves the tail-exited invariant. -/
theorem tailExited_set (s : PState) (hinv : s.tailExited) (i : Nat) (ph0 ph' : KPhase)
    (h : s.threads[i]? = some ph0) (halive : ph0.isAlive = true) :
    ∀ q ∈ (s.threads.set i ph').drop 1, q = KPhase.exited := by
  have hi : i = 0 := alive_index_zero s hinv i ph0 h halive
  subst hi
  intro q hq
  cases hth : s.threads with
  | nil => rw [hth] at hq; simp at hq
  | cons h0 t =>
    rw [hth, List.set_cons_zero] at hq
    refine hinv q ?_
    rw [hth]
    exact hq

/-- Helper: every step preserves the tail-exited invariant. -/
theorem tailExited_step (s s' : PState) (e : Ev) (hstep : Step s e s')
    (hinv : s.tailExited) : s'.tailExited := by
  cases hstep with
  | acquired name user envUser fqdn hfree =>
    intro q hq
    by_cases hsp : s.needSpawn = true
    · rw [if_pos hsp] at hq
      exact allExited_of_needSpawn s hsp hinv q hq
    · rw [if_neg hsp] at hq
      exact hinv q hq
  | released name => exact hinv
  | releaseAllRet => exact hinv
  | kwake i h hstop => exact tailExited_set s hinv i .idle _ h rfl
  | kstop i h hstop => exact tailExited_set s hinv i .idle _ h rfl
  | krefresh i key lockid rest h => exact tailExited_set s hinv i (.cycling _) _ h rfl
  | krefreshFail i key lockid rest h => exact tailExited_set s hinv i (.cycling _) _ h rfl
  | kcycleEnd i h => exact tailExited_set s hinv i (.cycling []) _ h rfl

/-- Helper: every reachable state satisfies the tail-exited invariant. -/
theorem tailExited_reach (s : PState) (h : Reach s) : s.tailExited := by
  induction h with
  | init => exact tailExited_init
  | step s s' e hr hs ih => exact tailExited_step s s' e hs ih

/-- Helper: the tail-exited invariant bounds the alive thread count by one. -/
theorem aliveCount_le_one (s : PState) (hinv : s.tailExited) : s.aliveCount ≤ 1 := by
  unfold PState.aliveCount
  cases hth : s.threads with
  | nil => simp
  | cons h0 t =>
    have ht : t.filter KPhase.isAlive = [] := by
      rw [List.filter_eq_nil_iff]
      intro a ha
      have hex : a = KPhase.exited := by
        refine hinv a ?_
        rw [hth]
        exact ha
      rw [hex]
      simp [KPhase.isAlive]
    rw [List.filter_cons, ht]
    cases hb : h0.isAlive <;> simp [hb]

/-- C6 counterexample: acquiring and then releasing a single lock reaches a
state with an empty registry and a still-alive keep-alive thread (the loop
never checks registry emptiness), so the claimed running-iff-non-empty
equivalence fails in the only-if direction. -/
theorem C6_counterexample :
    Reach ⟨[], false, [.idle]⟩
    ∧ (PState.mk [] false [.idle]).locks = []
    ∧ (PState.mk [] false [.idle]).aliveCount = 1
    ∧ ¬ ((PState.mk [] false [.idle]).aliveCount ≠ 0 ↔
          (PState.mk [] false [.idle]).locks ≠ []) := by
  refine ⟨?_, rfl, by decide, by decide⟩
  exact Reach.step _ _ _
    (Reach.step _ _ _ Reach.init (Step.acquired pstateInit "a" (some "u") none "h" rfl))
    (Step.released ⟨[("lab/locks/a", "u@h")], false, [.idle]⟩ "a")

/-- Helper: inversion of a `kwake` step. -/
theorem Step_kwake_inv (s s' : PState) (i : Nat) (h : Step s (.kwake i) s') :
    s.threads[i]? = some KPhase.idle ∧ s.stopSet = false ∧
      s' = ⟨s.locks, s.stopSet, s.threads.set i (.cycling s.locks)⟩ := by
  cases h
  exact ⟨by assumption, by assumption, rfl⟩

/-- Helper: inversion of a `krefresh` step: the refreshing thread holds a
snapshot whose head is the refreshed pair. -/
theorem Step_krefresh_inv (s s' : PState) (i : Nat) (key lockid : String)
    (h : Step s (.krefresh i key lockid) s') :
    ∃ rest, s.threads[i]? = some (.cycling ((key, lockid) :: rest)) := by
  cases h
  exact ⟨_, by assumption⟩

/-- C6 (amended): at every reachable state at most one keep-alive thread is
alive, and a wait-loop cycle begun while the registry is empty snapshots the
empty registry and so can issue no refresh; but the loop does not terminate
when the registry empties — it keeps waking as a no-op until `release_all`
sets the stop event, so the running-iff-non-empty equivalence fails. -/
theorem C6_keepaliveLifecycle (s : PState) (hreach : Reach s) :
    s.aliveCount ≤ 1
    ∧ (∀ (s' : PState) (i : Nat), s.locks = [] → Step s (.kwake i) s' →
        ∀ (s'' : PState) (key lockid : String),
          ¬ Step s' (.krefresh i key lockid) s'') := by
  constructor
  · exact aliveCount_le_one s (tailExited_reach s hreach)
  · intro s' i hlocks hwake s'' key lockid href
    obtain ⟨h, hstop, rfl⟩ := Step_kwake_inv s s' i hwake
    obtain ⟨rest, h2⟩ := Step_krefresh_inv _ s'' i key lockid href
    have hlen : i < s.threads.length := (List.getElem?_eq_some_iff.mp h).1
    have h2' : (s.threads.set i (KPhase.cycling s.locks))[i]? =
        some (.cycling ((key, lockid) :: rest)) := h2
    rw [List.getElem?_set, if_pos rfl, if_pos hlen] at h2'
    rw [hlocks] at h2'
    simp at h2'

/-- C6 witness: the bound and the empty-cycle no-refresh property at a
concrete reachable state. -/
theorem C6_keepaliveLifecycle_witness :
    (PState.mk [] false [.idle]).aliveCount ≤ 1
    ∧ ¬ Step ⟨[], false, [.cycling []]⟩ (.krefresh 0 "lab/locks/a" "u@h")
        ⟨[], false, [.cycling []]⟩ := by
  have hreach : Reach ⟨[], false, [.idle]⟩ :=
    Reach.step _ _ _
      (Reach.step _ _ _ Reach.init (Step.acquired pstateInit "a" (some "u") none "h" rfl))
      (Step.released ⟨[("lab/locks/a", "u@h")], false, [.idle]⟩ "a")
  have h := C6_keepaliveLifecycle ⟨[], false, [.idle]⟩ hreach
  refine ⟨h.1, ?_⟩
  exact h.2 ⟨[], false, [.cycling []]⟩ 0 rfl (Step.kwake ⟨[], false, [.idle]⟩ 0 rfl rfl)
    ⟨[], false, [.cycling []]⟩ "lab/locks/a" "u@h"

end Pytestlab
